import Mathlib

/-!
Verification of the maker.js 2D path kernel: a shallow embedding of the
path variant model, the transformation engine, the equality engine, the
break engine and the scoped temporary move, with theorems settling the
frozen claims about them.

JavaScript numbers are modelled as exact rationals.  The point, angle and
measure helper modules are not part of the sources under verification
(only their callers are), so those helpers are modelled from the
specification, each marked in its doc comment.  The polar-angle and
point-rotation primitives are transcendental, so they enter the embedding
as function parameters.
-/

namespace MakerJs

/-- An x-y point in two-dimensional space (source interface IPoint,
with JavaScript numbers modelled as rationals). -/
structure IPoint where
  x : ℚ
  y : ℚ
deriving DecidableEq

/-- The four path variants of the source data model: Line, Circle, Arc and
Bezier, each carrying its geometric fields plus the optional layer tag.
The Bezier variant keeps the source's two representations: a single
`control` point (quadratic) or a `controls` list. -/
inductive IPath where
  | line (origin : IPoint) (endPoint : IPoint) (layer : Option String)
  | circle (origin : IPoint) (radius : ℚ) (layer : Option String)
  | arc (origin : IPoint) (radius : ℚ) (startAngle : ℚ) (endAngle : ℚ) (layer : Option String)
  | bezier (origin : IPoint) (endPoint : IPoint) (control : Option IPoint)
      (controls : List IPoint) (layer : Option String)
deriving DecidableEq

/-- The origin field shared by every path variant. -/
def IPath.origin : IPath → IPoint
  | .line o _ _ => o
  | .circle o _ _ => o
  | .arc o _ _ _ _ => o
  | .bezier o _ _ _ _ => o

/-- The optional layer tag shared by every path variant. -/
def IPath.layer : IPath → Option String
  | .line _ _ l => l
  | .circle _ _ l => l
  | .arc _ _ _ _ l => l
  | .bezier _ _ _ _ l => l

/-- Replace the layer tag of a path (models the assignment
`result.layer = pathToBreak.layer`). -/
def IPath.withLayer : IPath → Option String → IPath
  | .line o e _, l => .line o e l
  | .circle o r _, l => .circle o r l
  | .arc o r s e _, l => .arc o r s e l
  | .bezier o e c cs _, l => .bezier o e c cs l

/-- Whether a path is the Bezier variant. -/
def IPath.isBezier : IPath → Bool
  | .bezier _ _ _ _ _ => true
  | _ => false

/-- Modelled from the spec: point.add (point module absent from the
sources) — componentwise vector add, or subtract when the flag is set. -/
def point.add (a b : IPoint) (subtract : Bool) : IPoint :=
  if subtract then ⟨a.x - b.x, a.y - b.y⟩ else ⟨a.x + b.x, a.y + b.y⟩

/-- Modelled from the spec: point.mirror (point module absent from the
sources) — negate the x and/or y coordinate. -/
def point.mirror (p : IPoint) (mirrorX mirrorY : Bool) : IPoint :=
  ⟨if mirrorX then -p.x else p.x, if mirrorY then -p.y else p.y⟩

/-- Modelled from the spec: point.areEqual (point module absent from the
sources) — exact comparison when no tolerance is supplied, per-axis
difference within tolerance otherwise. -/
def point.areEqual (a b : IPoint) (withinDistance : Option ℚ) : Bool :=
  match withinDistance with
  | none => decide (a = b)
  | some d => decide (|a.x - b.x| ≤ d ∧ |a.y - b.y| ≤ d)

/-- Modelled from the spec: angle.noRevolutions (angle module absent from
the sources) — normalize an angle in degrees into [0, 360). -/
def angle.noRevolutions (angleInDegrees : ℚ) : ℚ :=
  angleInDegrees - 360 * ((⌊angleInDegrees / 360⌋ : ℤ) : ℚ)

/-- Modelled from the spec: angle.ofArcEnd (angle module absent from the
sources) — the end angle of an arc adjusted past 360 when it is
numerically below the start angle, so that end minus start is the arc's
true positive sweep. -/
def angle.ofArcEnd (startAngle endAngle : ℚ) : ℚ :=
  if endAngle < startAngle then endAngle + 360 else endAngle

/-- Modelled from the spec: angle.mirror (angle module absent from the
sources) — reflect an angle consistently with point mirroring: negating
y sends an angle a to 360 - a, negating x sends it to 180 - a. -/
def angle.mirror (angleInDegrees : ℚ) (mirrorX mirrorY : Bool) : ℚ :=
  let a1 := if mirrorY then 360 - angleInDegrees else angleInDegrees
  if mirrorX then 180 - a1 else a1

/-- Modelled from the spec: angle.areEqual (angle module absent from the
sources) — equality of angles modulo full revolutions; the floating-point
tolerance is idealized to exact rational comparison. -/
def angle.areEqual (a b : ℚ) : Bool :=
  decide (angle.noRevolutions a = angle.noRevolutions b)

/-- Modelled from the spec: measure.isAngleEqual (measure module absent
from the sources) — same comparison as angle.areEqual. -/
def measure.isAngleEqual (a b : ℚ) : Bool :=
  decide (angle.noRevolutions a = angle.noRevolutions b)

/-- Modelled from the spec: measure.isBetween (measure module absent from
the sources) — whether a value lies between two limits, strictly when the
exclusive flag is set. -/
def measure.isBetween (valueInQuestion limitA limitB : ℚ) (exclusive : Bool) : Bool :=
  if exclusive then
    decide (min limitA limitB < valueInQuestion ∧ valueInQuestion < max limitA limitB)
  else
    decide (min limitA limitB ≤ valueInQuestion ∧ valueInQuestion ≤ max limitA limitB)

/-- Modelled from the spec: measure.isBetweenPoints (measure module absent
from the sources) — the spec states the Line break succeeds exactly when
the break point lies on the segment, endpoints included: collinear with
the segment and inside its bounding box. -/
def measure.isBetweenPoints (pointInQuestion origin endPoint : IPoint) : Bool :=
  decide ((endPoint.x - origin.x) * (pointInQuestion.y - origin.y)
      - (endPoint.y - origin.y) * (pointInQuestion.x - origin.x) = 0
    ∧ min origin.x endPoint.x ≤ pointInQuestion.x
    ∧ pointInQuestion.x ≤ max origin.x endPoint.x
    ∧ min origin.y endPoint.y ≤ pointInQuestion.y
    ∧ pointInQuestion.y ≤ max origin.y endPoint.y)

/-- The path mirror operation (path.ts): a new path whose origin is the
mirrored origin; Line mirrors the end point, Circle keeps its radius, Arc
mirrors the start angle and the end-of-arc angle and swaps them when
exactly one axis is mirrored, Bezier mirrors every defining point keeping
the control-point arity.  The source layer is copied onto the result. -/
def path.mirror (pathToMirror : IPath) (mirrorX mirrorY : Bool) : IPath :=
  let o := point.mirror pathToMirror.origin mirrorX mirrorY
  match pathToMirror with
  | .line _ e l => .line o (point.mirror e mirrorX mirrorY) l
  | .circle _ r l => .circle o r l
  | .arc _ r s e l =>
      let startAngle := angle.mirror s mirrorX mirrorY
      let endAngle := angle.mirror (angle.ofArcEnd s e) mirrorX mirrorY
      let x := mirrorX != mirrorY
      .arc o r (if x then endAngle else startAngle) (if x then startAngle else endAngle) l
  | .bezier _ e c cs l =>
      .bezier o (point.mirror e mirrorX mirrorY)
        (c.map (fun q => point.mirror q mirrorX mirrorY))
        (cs.map (fun q => point.mirror q mirrorX mirrorY)) l

/-- The path equality test (pathequality.ts): false when the variant tags
differ; Line compares undirected with point tolerance; Circle compares
origins under tolerance and radii exactly; Arc adds angle comparison of
both sweep angles; the Bezier handler is a stub that returns null (a falsy
value, modelled as false). -/
def path.areEqual (path1 path2 : IPath) (withinPointDistance : Option ℚ) : Bool :=
  match path1, path2 with
  | .line o1 e1 _, .line o2 e2 _ =>
      (point.areEqual o1 o2 withinPointDistance && point.areEqual e1 e2 withinPointDistance)
        || (point.areEqual o1 e2 withinPointDistance && point.areEqual e1 o2 withinPointDistance)
  | .circle o1 r1 _, .circle o2 r2 _ =>
      point.areEqual o1 o2 withinPointDistance && decide (r1 = r2)
  | .arc o1 r1 s1 e1 _, .arc o2 r2 s2 e2 _ =>
      (point.areEqual o1 o2 withinPointDistance && decide (r1 = r2))
        && angle.areEqual s1 s2 && angle.areEqual e1 e2
  | _, _ => false

/-- The path rotation operation (path.ts): identity when the rotation
amount is zero; otherwise the origin rotates about the rotation origin
(through the supplied point-rotation primitive, which is transcendental
and hence a parameter of the embedding), Line and Bezier rotate their end
and control points, and Arc adds the degrees to both sweep angles and
normalizes each independently into [0, 360). -/
def path.rotate (pointRotate : IPoint → ℚ → IPoint → IPoint)
    (pathToRotate : IPath) (angleInDegrees : ℚ) (rotationOrigin : IPoint) : IPath :=
  if angleInDegrees = 0 then pathToRotate else
  match pathToRotate with
  | .line o e l =>
      .line (pointRotate o angleInDegrees rotationOrigin)
        (pointRotate e angleInDegrees rotationOrigin) l
  | .circle o r l => .circle (pointRotate o angleInDegrees rotationOrigin) r l
  | .arc o r s e l =>
      .arc (pointRotate o angleInDegrees rotationOrigin) r
        (angle.noRevolutions (s + angleInDegrees))
        (angle.noRevolutions (e + angleInDegrees)) l
  | .bezier o e c cs l =>
      .bezier (pointRotate o angleInDegrees rotationOrigin)
        (pointRotate e angleInDegrees rotationOrigin)
        (c.map (fun q => pointRotate q angleInDegrees rotationOrigin))
        (cs.map (fun q => pointRotate q angleInDegrees rotationOrigin)) l

/-- The relative move operation (path.ts): the origin is moved by the
delta (subtracting when the flag is set); Line and Bezier additionally
move their end and control points; Circle and Arc move only the origin. -/
def path.moveRelative (pathToMove : IPath) (delta : IPoint) (subtract : Bool) : IPath :=
  match pathToMove with
  | .line o e l => .line (point.add o delta subtract) (point.add e delta subtract) l
  | .circle o r l => .circle (point.add o delta subtract) r l
  | .arc o r s e l => .arc (point.add o delta subtract) r s e l
  | .bezier o e c cs l =>
      .bezier (point.add o delta subtract) (point.add e delta subtract)
        (c.map (fun q => point.add q delta subtract))
        (cs.map (fun q => point.add q delta subtract)) l

/-- One pass of moveTemporary (path.ts): moveRelative each path with its
corresponding delta, skipping paths whose delta entry is absent. -/
def path.movePass (pathsToMove : List IPath) (deltas : List (Option IPoint))
    (subtract : Bool) : List IPath :=
  match pathsToMove, deltas with
  | [], _ => []
  | p :: ps, [] => p :: path.movePass ps [] subtract
  | p :: ps, none :: ds => p :: path.movePass ps ds subtract
  | p :: ps, some d :: ds => path.moveRelative p d subtract :: path.movePass ps ds subtract

/-- The scoped temporary move (path.ts): apply the deltas, run the task
(an opaque action that receives no reference to the paths), then apply
the same deltas with the subtract flag set. -/
def path.moveTemporary (pathsToMove : List IPath) (deltas : List (Option IPoint))
    (task : Unit → Unit) : List IPath :=
  let moved := path.movePass pathsToMove deltas false
  let _ := task ()
  path.movePass moved deltas true

/-- The break angle used by the Arc break (break.ts): the explicit break
angle argument when supplied, otherwise the polar angle of the break point
about the arc origin; mirrors the JavaScript expression
`angleOfBreak || angle.ofPointInDegrees(arc.origin, pointOfBreak)`, whose
falsy test also sends an explicit break angle of 0 to the polar-angle
fallback. -/
def path.resolveBreakAngle (ofPointInDegrees : IPoint → IPoint → ℚ)
    (origin pointOfBreak : IPoint) (angleOfBreak : Option ℚ) : ℚ :=
  match angleOfBreak with
  | some a => if a = 0 then ofPointInDegrees origin pointOfBreak else a
  | none => ofPointInDegrees origin pointOfBreak

/-- The wraparound search of the Arc break (break.ts): against a start
angle normalized to [0, 360) and an end preserving the arc's true sweep,
try the offsets 0, +360, -360 in order until the offset break angle lies
strictly between them; on success return the matching angle shifted back
into the arc's own angle frame. -/
def path.getAngleStrictlyBetweenArcAngles
    (arcStartAngle arcEndAngle angleAtBreakPoint : ℚ) : Option ℚ :=
  let startAngle := angle.noRevolutions arcStartAngle
  let endAngle := startAngle + angle.ofArcEnd arcStartAngle arcEndAngle - arcStartAngle
  match ([0, 360, -360] : List ℚ).find?
      (fun add => measure.isBetween (angleAtBreakPoint + add) startAngle endAngle true) with
  | some add => some (arcStartAngle + angleAtBreakPoint + add - startAngle)
  | none => none

/-- The per-variant break functions (break.ts), returning the new path (or
none) paired with the possibly mutated source path.  Arc: fail when the
break angle coincides with either sweep angle, otherwise search the
strictly-between representation, set the source end angle to it and return
the back half.  Circle: re-tag the source in place as a full-sweep Arc
starting at the break point's polar angle and return none.  Line: fail
unless the break point is on the segment, otherwise split at it.  Bezier:
delegate to the external curve-subdivision collaborator (a parameter). -/
def path.breakPathFunction (ofPointInDegrees : IPoint → IPoint → ℚ)
    (bezierBreakAt : IPath → Option ℚ → Option IPath)
    (pathToBreak : IPath) (pointOfBreak : IPoint)
    (angleOfBreak tOfBreak : Option ℚ) : Option IPath × IPath :=
  match pathToBreak with
  | .arc o r s e l =>
      let angleAtBreakPoint := path.resolveBreakAngle ofPointInDegrees o pointOfBreak angleOfBreak
      if measure.isAngleEqual angleAtBreakPoint s || measure.isAngleEqual angleAtBreakPoint e then
        (none, .arc o r s e l)
      else
        match path.getAngleStrictlyBetweenArcAngles s e angleAtBreakPoint with
        | none => (none, .arc o r s e l)
        | some between => (some (.arc o r between e none), .arc o r s between l)
  | .circle o r l =>
      let angleAtBreakPoint := ofPointInDegrees o pointOfBreak
      (none, .arc o r angleAtBreakPoint (angleAtBreakPoint + 360) l)
  | .line o e l =>
      if measure.isBetweenPoints pointOfBreak o e then
        (some (.line pointOfBreak e none), .line o pointOfBreak l)
      else (none, .line o e l)
  | .bezier o e c cs l => (bezierBreakAt (.bezier o e c cs l) tOfBreak, .bezier o e c cs l)

/-- Copy the source layer onto a returned break piece when the source has
one (break.ts, `if (result && ('layer' in pathToBreak))`). -/
def path.copyLayerToResult (src : IPath) (result : Option IPath) : Option IPath :=
  match result, src.layer with
  | some q, some l => some (q.withLayer (some l))
  | r, _ => r

/-- The break entry point (break.ts): nothing happens without a truthy
break point; otherwise dispatch on the path variant and copy the source
layer onto a returned piece. -/
def path.breakAtPoint (ofPointInDegrees : IPoint → IPoint → ℚ)
    (bezierBreakAt : IPath → Option ℚ → Option IPath)
    (pathToBreak : IPath) (pointOfBreak : Option IPoint)
    (angleOfBreak tOfBreak : Option ℚ) : Option IPath × IPath :=
  match pointOfBreak with
  | none => (none, pathToBreak)
  | some pob =>
      let r := path.breakPathFunction ofPointInDegrees bezierBreakAt pathToBreak pob
        angleOfBreak tOfBreak
      (path.copyLayerToResult pathToBreak r.1, r.2)

/-- Normalization into [0, 360): the result is nonnegative. -/
theorem angle.noRevolutions_nonneg (a : ℚ) : 0 ≤ angle.noRevolutions a := by
  unfold angle.noRevolutions
  have h : ((⌊a / 360⌋ : ℤ) : ℚ) ≤ a / 360 := Int.floor_le (a / 360)
  have h2 : (360 : ℚ) * ((⌊a / 360⌋ : ℤ) : ℚ) ≤ 360 * (a / 360) := by
    apply mul_le_mul_of_nonneg_left h
    norm_num
  have h3 : (360 : ℚ) * (a / 360) = a := by ring
  linarith

/-- Normalization into [0, 360): the result is below 360. -/
theorem angle.noRevolutions_lt_360 (a : ℚ) : angle.noRevolutions a < 360 := by
  unfold angle.noRevolutions
  have h : a / 360 < ((⌊a / 360⌋ : ℤ) : ℚ) + 1 := Int.lt_floor_add_one (a / 360)
  have h2 : (360 : ℚ) * (a / 360) < 360 * (((⌊a / 360⌋ : ℤ) : ℚ) + 1) := by
    apply mul_lt_mul_of_pos_left h
    norm_num
  have h3 : (360 : ℚ) * (a / 360) = a := by ring
  linarith

/-- Normalization is invariant under adding a full revolution. -/
theorem angle.noRevolutions_add_360 (a : ℚ) :
    angle.noRevolutions (a + 360) = angle.noRevolutions a := by
  unfold angle.noRevolutions
  have h : (a + 360) / 360 = a / 360 + 1 := by ring
  rw [h, Int.floor_add_one]
  push_cast
  ring

/-- Normalization is invariant under subtracting a full revolution. -/
theorem angle.noRevolutions_sub_360 (a : ℚ) :
    angle.noRevolutions (a - 360) = angle.noRevolutions a := by
  have h := angle.noRevolutions_add_360 (a - 360)
  have h2 : a - 360 + 360 = a := by ring
  rw [h2] at h
  exact h.symm

/-- Angle comparison modulo revolutions is reflexive. -/
theorem angle.areEqual_self (a : ℚ) : angle.areEqual a a = true := by
  simp [angle.areEqual]

/-- Angles a and a + 360 compare equal. -/
theorem angle.areEqual_add_360 (a : ℚ) : angle.areEqual a (a + 360) = true := by
  simp [angle.areEqual, angle.noRevolutions_add_360]

/-- Angles a and a - 360 compare equal. -/
theorem angle.areEqual_sub_360 (a : ℚ) : angle.areEqual a (a - 360) = true := by
  simp [angle.areEqual, angle.noRevolutions_sub_360]

/-- An arc's end angle compares equal (modulo revolutions) to its
end-of-arc angle. -/
theorem angle.areEqual_ofArcEnd (s e : ℚ) :
    angle.areEqual e (angle.ofArcEnd s e) = true := by
  unfold angle.ofArcEnd
  by_cases h : e < s
  · rw [if_pos h]
    exact angle.areEqual_add_360 e
  · rw [if_neg h]
    exact angle.areEqual_self e

/-- Reflecting a start angle across the x axis twice lands on the original
angle modulo revolutions, through the end-of-arc adjustment of the
intermediate arc. -/
theorem angle.areEqual_mirror_roundtrip (s t : ℚ) :
    angle.areEqual s (180 - angle.ofArcEnd (180 - t) (180 - s)) = true := by
  unfold angle.ofArcEnd
  by_cases h : (180 : ℚ) - s < 180 - t
  · rw [if_pos h]
    have h2 : (180 : ℚ) - (180 - s + 360) = s - 360 := by ring
    rw [h2]
    exact angle.areEqual_sub_360 s
  · rw [if_neg h]
    have h2 : (180 : ℚ) - (180 - s) = s := by ring
    rw [h2]
    exact angle.areEqual_self s

/-- Mirroring a point across the x axis twice is the identity. -/
theorem point.mirror_mirror_x (p : IPoint) :
    point.mirror (point.mirror p true false) true false = p := by
  cases p
  simp [point.mirror]

/-- Adding then subtracting the same delta restores a point exactly. -/
theorem point.add_roundtrip (a d : IPoint) :
    point.add (point.add a d false) d true = a := by
  cases a
  cases d
  simp [point.add]

/-- Adding then subtracting the same delta restores an optional point. -/
theorem point.add_roundtrip_option (c : Option IPoint) (d : IPoint) :
    (c.map (fun q => point.add q d false)).map (fun q => point.add q d true) = c := by
  cases c with
  | none => rfl
  | some a => simp [point.add_roundtrip]

/-- Adding then subtracting the same delta restores a list of points. -/
theorem point.add_roundtrip_list (cs : List IPoint) (d : IPoint) :
    (cs.map (fun q => point.add q d false)).map (fun q => point.add q d true) = cs := by
  induction cs with
  | nil => rfl
  | cons a cs ih => simp [point.add_roundtrip, ih]

/-- Relative move with a delta followed by relative move with the same
delta and the subtract flag restores every field of the path exactly. -/
theorem path.moveRelative_roundtrip (p : IPath) (d : IPoint) :
    path.moveRelative (path.moveRelative p d false) d true = p := by
  cases p with
  | line o e l => simp [path.moveRelative, point.add_roundtrip]
  | circle o r l => simp [path.moveRelative, point.add_roundtrip]
  | arc o r s e l => simp [path.moveRelative, point.add_roundtrip]
  | bezier o e c cs l =>
      simp only [path.moveRelative, point.add_roundtrip]
      rw [point.add_roundtrip_option, point.add_roundtrip_list]

/-- C2: breaking a Circle converts the source in place into an Arc whose
start angle is the polar angle of the break point about the origin and
whose end angle is that angle plus 360, leaves origin and radius
unchanged, and returns null; in particular breaking Circle at origin
[0,0] with radius 3 at point [3,0] (polar angle 0) yields an Arc with
start angle 0 and end angle 360, returning null. -/
theorem C2_circle_break (ofp : IPoint → IPoint → ℚ)
    (bezFn : IPath → Option ℚ → Option IPath)
    (h : ofp ⟨0, 0⟩ ⟨3, 0⟩ = 0) :
    (∀ (o : IPoint) (r : ℚ) (l : Option String) (pob : IPoint) (aB t : Option ℚ),
      path.breakAtPoint ofp bezFn (.circle o r l) (some pob) aB t
        = (none, .arc o r (ofp o pob) (ofp o pob + 360) l)) ∧
    path.breakAtPoint ofp bezFn (.circle ⟨0, 0⟩ 3 none) (some ⟨3, 0⟩) none none
      = (none, .arc ⟨0, 0⟩ 3 0 360 none) := by
  constructor
  · intro o r l pob aB t
    rfl
  · have hgen : path.breakAtPoint ofp bezFn (.circle ⟨0, 0⟩ 3 none) (some ⟨3, 0⟩) none none
        = (none, .arc ⟨0, 0⟩ 3 (ofp ⟨0, 0⟩ ⟨3, 0⟩) (ofp ⟨0, 0⟩ ⟨3, 0⟩ + 360) none) := rfl
    rw [hgen, h]
    norm_num

/-- C2 witness: the circle break scenario evaluated at a concrete
polar-angle function sending ([0,0],[3,0]) to 0. -/
theorem C2_circle_break_witness :
    ((fun _ _ => (0 : ℚ)) (⟨0, 0⟩ : IPoint) (⟨3, 0⟩ : IPoint) = 0) ∧
    path.breakAtPoint (fun _ _ => (0 : ℚ)) (fun _ _ => none)
      (.circle ⟨0, 0⟩ 3 none) (some ⟨3, 0⟩) none none
      = (none, .arc ⟨0, 0⟩ 3 0 360 none) :=
  ⟨rfl, (C2_circle_break (fun _ _ => (0 : ℚ)) (fun _ _ => none) rfl).2⟩

/-- C3: breaking a Line returns null and leaves the line unchanged unless
the break point lies on the segment (endpoints included); on the segment
it sets the source end to the break point and returns a new Line from the
break point to the saved original end. -/
theorem C3_line_break (ofp : IPoint → IPoint → ℚ)
    (bezFn : IPath → Option ℚ → Option IPath)
    (o e : IPoint) (l : Option String) (pob : IPoint) (aB t : Option ℚ) :
    path.breakAtPoint ofp bezFn (.line o e l) (some pob) aB t
      = if measure.isBetweenPoints pob o e
        then (some (.line pob e l), .line o pob l)
        else (none, .line o e l) := by
  cases hb : measure.isBetweenPoints pob o e with
  | false =>
      simp [path.breakAtPoint, path.breakPathFunction, hb, path.copyLayerToResult]
  | true =>
      cases l with
      | none =>
          simp [path.breakAtPoint, path.breakPathFunction, hb, path.copyLayerToResult,
            IPath.layer]
      | some lv =>
          simp [path.breakAtPoint, path.breakPathFunction, hb, path.copyLayerToResult,
            IPath.layer, IPath.withLayer]

/-- C4: breaking an Arc at an angle that coincides (modulo revolutions)
with its start or end angle returns null and leaves the arc unchanged. -/
theorem C4_arc_break_at_endpoint (ofp : IPoint → IPoint → ℚ)
    (bezFn : IPath → Option ℚ → Option IPath)
    (o : IPoint) (r s e : ℚ) (l : Option String) (pob : IPoint) (aB t : Option ℚ)
    (h : measure.isAngleEqual (path.resolveBreakAngle ofp o pob aB) s = true
       ∨ measure.isAngleEqual (path.resolveBreakAngle ofp o pob aB) e = true) :
    path.breakAtPoint ofp bezFn (.arc o r s e l) (some pob) aB t
      = (none, .arc o r s e l) := by
  have hcond : (measure.isAngleEqual (path.resolveBreakAngle ofp o pob aB) s
      || measure.isAngleEqual (path.resolveBreakAngle ofp o pob aB) e) = true := by
    rcases h with h | h <;> simp [h]
  simp [path.breakAtPoint, path.breakPathFunction, hcond, path.copyLayerToResult]

/-- C4 witness: breaking the arc from 10 to 90 degrees at break angle 10
(its own start angle) returns null and leaves the arc unchanged. -/
theorem C4_arc_break_at_endpoint_witness :
    (measure.isAngleEqual
        (path.resolveBreakAngle (fun _ _ => (0 : ℚ)) ⟨0, 0⟩ ⟨1, 0⟩ (some 10)) 10 = true) ∧
    path.breakAtPoint (fun _ _ => (0 : ℚ)) (fun _ _ => none)
      (.arc ⟨0, 0⟩ 1 10 90 none) (some ⟨1, 0⟩) (some 10) none
      = (none, .arc ⟨0, 0⟩ 1 10 90 none) := by
  have h : measure.isAngleEqual
      (path.resolveBreakAngle (fun _ _ => (0 : ℚ)) ⟨0, 0⟩ ⟨1, 0⟩ (some 10)) 10 = true := by
    norm_num [path.resolveBreakAngle, measure.isAngleEqual]
  exact ⟨h, C4_arc_break_at_endpoint _ _ _ _ _ _ _ _ _ _ (Or.inl h)⟩

/-- C6: rotating an Arc by a nonzero amount adds the degrees to both sweep
angles and normalizes each independently into [0, 360); in particular the
arc from 0 to 90 degrees rotated by 90 about [0,0] has start angle 90 and
end angle 180. -/
theorem C6_rotate_arc (rotFn : IPoint → ℚ → IPoint → IPoint)
    (o : IPoint) (r s e : ℚ) (l : Option String) (deg : ℚ) (center : IPoint)
    (h : deg ≠ 0) :
    path.rotate rotFn (.arc o r s e l) deg center
      = .arc (rotFn o deg center) r (angle.noRevolutions (s + deg))
          (angle.noRevolutions (e + deg)) l
    ∧ 0 ≤ angle.noRevolutions (s + deg) ∧ angle.noRevolutions (s + deg) < 360
    ∧ 0 ≤ angle.noRevolutions (e + deg) ∧ angle.noRevolutions (e + deg) < 360
    ∧ path.rotate rotFn (.arc ⟨0, 0⟩ 5 0 90 none) 90 ⟨0, 0⟩
      = .arc (rotFn ⟨0, 0⟩ 90 ⟨0, 0⟩) 5 90 180 none := by
  refine ⟨?_, angle.noRevolutions_nonneg _, angle.noRevolutions_lt_360 _,
    angle.noRevolutions_nonneg _, angle.noRevolutions_lt_360 _, ?_⟩
  · simp [path.rotate, h]
  · have h90 : angle.noRevolutions (90 : ℚ) = 90 := by
      norm_num [angle.noRevolutions]
    have h180 : angle.noRevolutions (180 : ℚ) = 180 := by
      norm_num [angle.noRevolutions]
    norm_num [path.rotate, h90, h180]

/-- C6 witness: the rotation scenario at a concrete point-rotation
function. -/
theorem C6_rotate_arc_witness :
    ((90 : ℚ) ≠ 0) ∧
    path.rotate (fun p _ _ => p) (.arc ⟨0, 0⟩ 5 0 90 none) 90 ⟨0, 0⟩
      = .arc ⟨0, 0⟩ 5 90 180 none := by
  refine ⟨by norm_num, ?_⟩
  exact (C6_rotate_arc (fun p _ _ => p) ⟨0, 0⟩ 5 0 90 none 90 ⟨0, 0⟩
    (by norm_num)).2.2.2.2.2

/-- C7: moveTemporary applies the deltas, runs the task, then applies the
same deltas with the subtract flag; afterwards every field of every path
equals its pre-call value exactly. -/
theorem C7_moveTemporary_roundtrip (ps : List IPath) (ds : List (Option IPoint))
    (task : Unit → Unit) :
    path.moveTemporary ps ds task = ps := by
  show path.movePass (path.movePass ps ds false) ds true = ps
  induction ps generalizing ds with
  | nil => rfl
  | cons p ps ih =>
      cases ds with
      | nil => simp [path.movePass, path.moveRelative_roundtrip, ih]
      | cons d ds =>
          cases d with
          | none => simp [path.movePass, ih]
          | some dd => simp [path.movePass, path.moveRelative_roundtrip, ih]

/-- C8: when the break point argument is absent, breakAtPoint on a Bezier
returns null and the source is untouched, regardless of the curve
parameter t: the top-level guard requires a break point before any
dispatch. -/
theorem C8_bezier_break_requires_point (ofp : IPoint → IPoint → ℚ)
    (bezFn : IPath → Option ℚ → Option IPath)
    (o e : IPoint) (c : Option IPoint) (cs : List IPoint) (l : Option String)
    (aB t : Option ℚ) :
    path.breakAtPoint ofp bezFn (.bezier o e c cs l) none aB t
      = (none, .bezier o e c cs l) := rfl

/-- C10: the Bezier branch of the equality engine is a stub returning a
falsy value, so no two Bezier paths ever compare equal. -/
theorem C10_bezier_never_equal (o1 e1 : IPoint) (c1 : Option IPoint)
    (cs1 : List IPoint) (l1 : Option String)
    (o2 e2 : IPoint) (c2 : Option IPoint) (cs2 : List IPoint) (l2 : Option String)
    (tol : Option ℚ) :
    path.areEqual (.bezier o1 e1 c1 cs1 l1) (.bezier o2 e2 c2 cs2 l2) tol = false := rfl

/-- C1 counterexample: breaking Arc origin [0,0], radius 5, start 350,
end 10 at break angle 5 sets the source end angle to 365 and returns an
Arc starting at 365 — not 5 as the claim's scenario asserts (365 and 5
agree only modulo revolutions). -/
theorem C1_counterexample :
    path.breakAtPoint (fun _ _ => (0 : ℚ)) (fun _ _ => none)
      (.arc ⟨0, 0⟩ 5 350 10 none) (some ⟨1, 0⟩) (some 5) none
      = (some (.arc ⟨0, 0⟩ 5 365 10 none), .arc ⟨0, 0⟩ 5 350 365 none)
    ∧ (365 : ℚ) ≠ 5 := by
  refine ⟨?_, by norm_num⟩
  have hr : path.resolveBreakAngle (fun _ _ => (0 : ℚ)) ⟨0, 0⟩ ⟨1, 0⟩ (some 5) = 5 := by
    norm_num [path.resolveBreakAngle]
  have h1 : measure.isAngleEqual 5 350 = false := by
    norm_num [measure.isAngleEqual, angle.noRevolutions]
  have h2 : measure.isAngleEqual 5 10 = false := by
    norm_num [measure.isAngleEqual, angle.noRevolutions]
  have h3 : path.getAngleStrictlyBetweenArcAngles 350 10 5 = some 365 := by
    unfold path.getAngleStrictlyBetweenArcAngles
    have ha : angle.noRevolutions 350 = 350 := by norm_num [angle.noRevolutions]
    have hb : angle.ofArcEnd 350 10 = 370 := by norm_num [angle.ofArcEnd]
    rw [ha, hb]
    norm_num [measure.isBetween, List.find?]
  simp only [path.breakAtPoint, path.breakPathFunction, hr, h1, h2, h3, Bool.or_self,
    Bool.false_eq_true, if_false, path.copyLayerToResult, IPath.layer]

/-- C1 (amended): for an Arc whose break angle coincides with neither
sweep angle, the break resolves the angle by normalizing the start to
[0, 360), taking the end as start plus the true sweep, and trying offsets
0, +360, -360 in order until the offset break angle is strictly between
them; with no match it returns null leaving the arc unchanged, and on a
match the source end angle becomes the matched angle shifted back into
the arc's own frame (startAngle + breakAngle + offset - normalizedStart)
and a new Arc from that angle to the saved original end is returned.  In
particular Arc start 350 end 10 broken at 5 gets source end angle 365
(not 5) and returns Arc start 365 end 10. -/
theorem C1_arc_break_amended (ofp : IPoint → IPoint → ℚ)
    (bezFn : IPath → Option ℚ → Option IPath)
    (o : IPoint) (r s e : ℚ) (l : Option String) (pob : IPoint) (aB t : Option ℚ)
    (h1 : measure.isAngleEqual (path.resolveBreakAngle ofp o pob aB) s = false)
    (h2 : measure.isAngleEqual (path.resolveBreakAngle ofp o pob aB) e = false) :
    (path.getAngleStrictlyBetweenArcAngles s e (path.resolveBreakAngle ofp o pob aB) = none →
      path.breakAtPoint ofp bezFn (.arc o r s e l) (some pob) aB t
        = (none, .arc o r s e l)) ∧
    (∀ between,
      path.getAngleStrictlyBetweenArcAngles s e (path.resolveBreakAngle ofp o pob aB)
          = some between →
      path.breakAtPoint ofp bezFn (.arc o r s e l) (some pob) aB t
        = (some (.arc o r between e l), .arc o r s between l)) ∧
    path.breakAtPoint ofp bezFn (.arc ⟨0, 0⟩ 5 350 10 none) (some pob) (some 5) t
      = (some (.arc ⟨0, 0⟩ 5 365 10 none), .arc ⟨0, 0⟩ 5 350 365 none) := by
  refine ⟨?_, ?_, ?_⟩
  · intro hg
    simp [path.breakAtPoint, path.breakPathFunction, h1, h2, hg, path.copyLayerToResult]
  · intro between hg
    cases l with
    | none =>
        simp [path.breakAtPoint, path.breakPathFunction, h1, h2, hg,
          path.copyLayerToResult, IPath.layer]
    | some lv =>
        simp [path.breakAtPoint, path.breakPathFunction, h1, h2, hg,
          path.copyLayerToResult, IPath.layer, IPath.withLayer]
  · have hr : path.resolveBreakAngle ofp ⟨0, 0⟩ pob (some 5) = 5 := by
      norm_num [path.resolveBreakAngle]
    have hq1 : measure.isAngleEqual 5 350 = false := by
      norm_num [measure.isAngleEqual, angle.noRevolutions]
    have hq2 : measure.isAngleEqual 5 10 = false := by
      norm_num [measure.isAngleEqual, angle.noRevolutions]
    have hq3 : path.getAngleStrictlyBetweenArcAngles 350 10 5 = some 365 := by
      unfold path.getAngleStrictlyBetweenArcAngles
      have ha : angle.noRevolutions 350 = 350 := by norm_num [angle.noRevolutions]
      have hb : angle.ofArcEnd 350 10 = 370 := by norm_num [angle.ofArcEnd]
      rw [ha, hb]
      norm_num [measure.isBetween, List.find?]
    simp only [path.breakAtPoint, path.breakPathFunction, hr, hq1, hq2, hq3,
      Bool.or_self, Bool.false_eq_true, if_false, path.copyLayerToResult, IPath.layer]

/-- C1 witness: the amended break applied to the arc from 0 to 90 degrees
at break angle 45, which succeeds with resolved angle 45. -/
theorem C1_arc_break_amended_witness :
    (measure.isAngleEqual
        (path.resolveBreakAngle (fun _ _ => (0 : ℚ)) ⟨0, 0⟩ ⟨1, 0⟩ (some 45)) 0 = false) ∧
    (measure.isAngleEqual
        (path.resolveBreakAngle (fun _ _ => (0 : ℚ)) ⟨0, 0⟩ ⟨1, 0⟩ (some 45)) 90 = false) ∧
    path.breakAtPoint (fun _ _ => (0 : ℚ)) (fun _ _ => none)
      (.arc ⟨0, 0⟩ 1 0 90 none) (some ⟨1, 0⟩) (some 45) none
      = (some (.arc ⟨0, 0⟩ 1 45 90 none), .arc ⟨0, 0⟩ 1 0 45 none) := by
  have hr : path.resolveBreakAngle (fun _ _ => (0 : ℚ)) ⟨0, 0⟩ ⟨1, 0⟩ (some 45) = 45 := by
    norm_num [path.resolveBreakAngle]
  have h1 : measure.isAngleEqual 45 0 = false := by
    norm_num [measure.isAngleEqual, angle.noRevolutions]
  have h2 : measure.isAngleEqual 45 90 = false := by
    norm_num [measure.isAngleEqual, angle.noRevolutions]
  have h3 : path.getAngleStrictlyBetweenArcAngles 0 90 45 = some 45 := by
    unfold path.getAngleStrictlyBetweenArcAngles
    have ha : angle.noRevolutions 0 = 0 := by norm_num [angle.noRevolutions]
    have hb : angle.ofArcEnd 0 90 = 90 := by norm_num [angle.ofArcEnd]
    rw [ha, hb]
    norm_num [measure.isBetween, List.find?]
  refine ⟨by rw [hr]; exact h1, by rw [hr]; exact h2, ?_⟩
  exact (C1_arc_break_amended (fun _ _ => (0 : ℚ)) (fun _ _ => none)
    ⟨0, 0⟩ 1 0 90 none ⟨1, 0⟩ (some 45) none
    (by rw [hr]; exact h1) (by rw [hr]; exact h2)).2.1 45 (by rw [hr]; exact h3)

/-- C5 counterexample: a Bezier path double-mirrored across the x axis is
not reported equal to the original, because the Bezier equality handler
is a stub returning a falsy value. -/
theorem C5_counterexample :
    path.areEqual (.bezier ⟨0, 0⟩ ⟨1, 1⟩ none [⟨1, 0⟩] none)
      (path.mirror (path.mirror (.bezier ⟨0, 0⟩ ⟨1, 1⟩ none [⟨1, 0⟩] none) true false)
        true false) none = false := rfl

/-- C5 (amended): for every Line, Circle or Arc path, mirroring twice
across the same single axis yields a path that areEqual reports equal to
the original; for Bezier paths the property fails because the Bezier
equality handler never reports equality. -/
theorem C5_double_mirror_amended (p : IPath) (h : p.isBezier = false) :
    path.areEqual p (path.mirror (path.mirror p true false) true false) none = true := by
  cases p with
  | line o e l =>
      simp [path.mirror, IPath.origin, path.areEqual, point.mirror_mirror_x, point.areEqual]
  | circle o r l =>
      simp [path.mirror, IPath.origin, path.areEqual, point.mirror_mirror_x, point.areEqual]
  | arc o r s e l =>
      have hm : path.mirror (path.mirror (.arc o r s e l) true false) true false
          = .arc o r (180 - angle.ofArcEnd (180 - angle.ofArcEnd s e) (180 - s))
              (180 - (180 - angle.ofArcEnd s e)) l := by
        simp [path.mirror, IPath.origin, angle.mirror, point.mirror_mirror_x]
      rw [hm]
      simp only [path.areEqual, point.areEqual, decide_eq_true_eq, decide_True,
        Bool.and_eq_true, Bool.true_and, decide_eq_true_iff]
      refine ⟨?_, ?_⟩
      · exact angle.areEqual_mirror_roundtrip s (angle.ofArcEnd s e)
      · have h2 : (180 : ℚ) - (180 - angle.ofArcEnd s e) = angle.ofArcEnd s e := by ring
        rw [h2]
        exact angle.areEqual_ofArcEnd s e
  | bezier o e c cs l => simp [IPath.isBezier] at h

/-- C5 witness: a concrete Line double-mirrored across the x axis
compares equal to the original. -/
theorem C5_double_mirror_amended_witness :
    (IPath.isBezier (.line ⟨1, 2⟩ ⟨3, 4⟩ none) = false) ∧
    path.areEqual (.line ⟨1, 2⟩ ⟨3, 4⟩ none)
      (path.mirror (path.mirror (.line ⟨1, 2⟩ ⟨3, 4⟩ none) true false) true false)
      none = true :=
  ⟨rfl, C5_double_mirror_amended (.line ⟨1, 2⟩ ⟨3, 4⟩ none) rfl⟩

/-- C9: whenever breakAtPoint on an Arc returns a second piece, the
source arc keeps its origin, radius, start angle (and layer and variant):
only the end angle is mutated. -/
theorem C9_arc_break_frame (ofp : IPoint → IPoint → ℚ)
    (bezFn : IPath → Option ℚ → Option IPath)
    (o : IPoint) (r s e : ℚ) (l : Option String) (pob : IPoint) (aB t : Option ℚ)
    (q src : IPath)
    (h : path.breakAtPoint ofp bezFn (.arc o r s e l) (some pob) aB t = (some q, src)) :
    ∃ newEnd, src = IPath.arc o r s newEnd l := by
  cases hA : (measure.isAngleEqual (path.resolveBreakAngle ofp o pob aB) s
      || measure.isAngleEqual (path.resolveBreakAngle ofp o pob aB) e) with
  | true =>
      simp [path.breakAtPoint, path.breakPathFunction, hA, path.copyLayerToResult] at h
  | false =>
      cases hg : path.getAngleStrictlyBetweenArcAngles s e
          (path.resolveBreakAngle ofp o pob aB) with
      | none =>
          simp [path.breakAtPoint, path.breakPathFunction, hA, hg,
            path.copyLayerToResult] at h
      | some between =>
          simp only [path.breakAtPoint, path.breakPathFunction, hA, hg,
            Bool.false_eq_true, if_false, Prod.mk.injEq] at h
          exact ⟨between, h.2.symm⟩

/-- C9 witness: a successful concrete arc break (start 0, end 90, break
angle 45) whose mutated source differs from the original only in its end
angle. -/
theorem C9_arc_break_frame_witness :
    (path.breakAtPoint (fun _ _ => (0 : ℚ)) (fun _ _ => none)
      (.arc ⟨0, 0⟩ 1 0 90 none) (some ⟨1, 0⟩) (some 45) none
      = (some (.arc ⟨0, 0⟩ 1 45 90 none), .arc ⟨0, 0⟩ 1 0 45 none)) ∧
    ∃ newEnd, IPath.arc ⟨0, 0⟩ 1 0 45 none = IPath.arc ⟨0, 0⟩ 1 0 newEnd none := by
  have hr : path.resolveBreakAngle (fun _ _ => (0 : ℚ)) ⟨0, 0⟩ ⟨1, 0⟩ (some 45) = 45 := by
    norm_num [path.resolveBreakAngle]
  have h1 : measure.isAngleEqual 45 0 = false := by
    norm_num [measure.isAngleEqual, angle.noRevolutions]
  have h2 : measure.isAngleEqual 45 90 = false := by
    norm_num [measure.isAngleEqual, angle.noRevolutions]
  have h3 : path.getAngleStrictlyBetweenArcAngles 0 90 45 = some 45 := by
    unfold path.getAngleStrictlyBetweenArcAngles
    have ha : angle.noRevolutions 0 = 0 := by norm_num [angle.noRevolutions]
    have hb : angle.ofArcEnd 0 90 = 90 := by norm_num [angle.ofArcEnd]
    rw [ha, hb]
    norm_num [measure.isBetween, List.find?]
  have hmain : path.breakAtPoint (fun _ _ => (0 : ℚ)) (fun _ _ => none)
      (.arc ⟨0, 0⟩ 1 0 90 none) (some ⟨1, 0⟩) (some 45) none
      = (some (.arc ⟨0, 0⟩ 1 45 90 none), .arc ⟨0, 0⟩ 1 0 45 none) := by
    simp only [path.breakAtPoint, path.breakPathFunction, hr, h1, h2, h3,
      Bool.or_self, Bool.false_eq_true, if_false, path.copyLayerToResult, IPath.layer]
  exact ⟨hmain, C9_arc_break_frame (fun _ _ => (0 : ℚ)) (fun _ _ => none)
    ⟨0, 0⟩ 1 0 90 none ⟨1, 0⟩ (some 45) none _ _ hmain⟩

end MakerJs
